import Mathlib

/-!
Formal model of the UE4SS mod manager core (`src/common/mod.py` and
`src/common/mod_manager.py`): mod discovery, validation, enable/disable
marker handling, and the three persistence backends (per-mod
`enabled.txt` markers, `mods.json`, `mods.txt`).

Filesystem values are modelled explicitly: a root directory carries its
textual path, its own name and its parent's name, the two optional
override files, and its immediate subdirectories; the mutable
persistence state carries the set of marker files and the contents of
the two list files.  The Python string operations the source relies on
(`str.strip`, `str.split`, slicing, `str.upper`, `pathlib.Path.stem`,
`str.replace`) are reproduced over `List Char` with ASCII semantics,
which is all the source exercises.
-/

deriving instance DecidableEq for Except

/-- Whitespace test matching Python `str.strip()` for the ASCII range. -/
def isPySpace (c : Char) : Bool :=
  c = ' ' || c = '\t' || c = '\n' || c = '\r' || c.toNat = 11 || c.toNat = 12

/-- Python `s.strip()`: remove leading and trailing whitespace. -/
def pyTrim (s : String) : String :=
  String.mk (((s.data.dropWhile isPySpace).reverse.dropWhile isPySpace).reverse)

/-- Python `s.endswith(suffix)`. -/
def pyEndsWith (s suffix : String) : Bool :=
  suffix.data.isSuffixOf s.data

/-- ASCII uppercase of one character (Python `str.upper` on ASCII input). -/
def pyUpperChar (c : Char) : Char :=
  if 97 ≤ c.toNat ∧ c.toNat ≤ 122 then Char.ofNat (c.toNat - 32) else c

/-- Python `s.upper()` restricted to ASCII, which the source only ever
compares against ASCII literals ("MODS", "UE4SS", "SHARED"). -/
def pyUpper (s : String) : String :=
  String.mk (s.data.map pyUpperChar)

/-- ASCII lowercase of one character. -/
def pyLowerChar (c : Char) : Char :=
  if 65 ≤ c.toNat ∧ c.toNat ≤ 90 then Char.ofNat (c.toNat + 32) else c

/-- Python `s.lower()` restricted to ASCII; used to model the
case-insensitive glob of `path.glob(..., case_sensitive=False)`. -/
def pyLower (s : String) : String :=
  String.mk (s.data.map pyLowerChar)

/-- Characters of `s` with every `/` and `\` removed: models
`str(script).replace("/", "").replace("\\", "")`. -/
def stripSlashes (s : String) : String :=
  String.mk (s.data.filter (fun c => !(c = '/' || c = '\\')))

/-- Fuel-driven worker for Python `str.split(sep)` with a non-empty
separator.  The fuel is the length of the input, which suffices because
every step consumes at least one character. -/
def pySplitAux (sep : List Char) : Nat → List Char → List Char → List (List Char)
  | _, [], acc => [acc.reverse]
  | 0, rest, acc => [acc.reverse ++ rest]
  | fuel + 1, c :: rest, acc =>
    if sep.isPrefixOf (c :: rest) then
      acc.reverse :: pySplitAux sep fuel ((c :: rest).drop sep.length) []
    else
      pySplitAux sep fuel rest (c :: acc)

/-- Python `s.split(sep)` for a non-empty separator (an empty separator
raises in Python; the source always splits on a mod name). -/
def pySplit (s sep : String) : List String :=
  if sep.data.isEmpty then [s]
  else (pySplitAux sep.data s.data.length s.data []).map String.mk

/-- Python `lst[1]` after a split.  In every use in the source, the
separator (the mod's stem) occurs in the path string, so the split has
at least two parts and the default is never taken. -/
def pyIndex1 (l : List String) : String :=
  l.getD 1 ""

/-- Python `s[7:]`. -/
def pyDrop7 (s : String) : String :=
  String.mk (s.data.drop 7)

/-- Index of the last `.` in a character list, if any. -/
def lastDotIdx (cs : List Char) : Option Nat :=
  ((List.range cs.length).filter (fun i => cs.getD i ' ' = '.')).getLast?

/-- `pathlib.PurePath.stem` of a final path component: the name minus
its last suffix, where a suffix is a dot segment starting strictly
inside the name and not at its very end. -/
def pyStem (s : String) : String :=
  match lastDotIdx s.data with
  | some i => if 0 < i ∧ i + 1 < s.data.length then String.mk (s.data.take i) else s
  | none => s

/-- Script language of a mod, `Literal["lua", "cpp"]` in the source. -/
inductive Lang
  | lua
  | cpp
deriving DecidableEq, Repr

/-- Failure of `UE4SSMod.from_path` (`InvalidModException` in the
source); the two raise sites are distinguished, their message strings
are not modelled. -/
inductive ModError
  | noScripts
  | noMainFile
deriving DecidableEq, Repr

/-- Failure of manager construction (`InvalidModFolderException`). -/
inductive MgrError
  | invalidModFolder
deriving DecidableEq, Repr

/-- One record of the `mods.json` manifest:
`{"mod_name": ..., "mod_enabled": ...}`.  The file bytes are the
deterministic `json.dumps` image of the record list, so structural
equality of record lists captures byte equality of files the program
wrote. -/
structure JsonRecord where
  mod_name : String
  mod_enabled : Bool
deriving DecidableEq, Repr

/-- One immediate child of the root directory, as seen by discovery:
its entry name, whether it is a directory, the file names directly
under its `scripts/` and `dlls/` subfolders, and whether it contains
the `enabled.txt` marker. -/
structure ModDir where
  name : String
  isDir : Bool
  scriptsFiles : List String
  dllsFiles : List String
  hasEnabledTxt : Bool
deriving DecidableEq, Repr

/-- The root directory handed to `UE4SSModManager`: its textual path,
its own name and its parent directory's name, existence/directory
flags, the two optional override files, and its children. -/
structure RootFS where
  pathStr : String
  name : String
  parentName : String
  existsOnDisk : Bool
  isDir : Bool
  modsTxt : Option String
  modsJson : Option (List JsonRecord)
  entries : List ModDir
deriving DecidableEq, Repr

/-- Mutable on-disk state touched by enable/disable and the persistence
writes: the set of mod paths whose `enabled.txt` marker exists, and the
contents of `mods.txt` and `mods.json` at the root. -/
structure FSState where
  markers : List String
  modsTxtFile : Option String
  modsJsonFile : Option (List JsonRecord)
deriving DecidableEq, Repr

/-- The three independent save options of `parse_mods`. -/
structure SaveOpts where
  save_enabled_txt : Bool := true
  save_mods_json : Bool := true
  save_mods_txt : Bool := true
deriving DecidableEq, Repr

/-- The `UE4SSMod` dataclass.  `path` is the textual path of the mod's
folder. -/
structure UE4SSMod where
  name : String
  path : String
  enabled : Bool
  scripts : List String
  is_native : Bool := false
  lang : Lang := Lang.lua
deriving DecidableEq, Repr

/-- Relative script name as computed by `from_path`:
`str(script).replace("/", "").replace("\\", "").split(name)[1][7:]`. -/
def relScriptName (scriptPath modName : String) : String :=
  pyDrop7 (pyIndex1 (pySplit (stripSlashes scriptPath) modName))

/-- `UE4SSMod.from_path`.  A non-directory yields `none` (the source
logs a warning and returns `None`); the two `InvalidModException` raise
sites yield errors.  The glob `scripts/*.lua` (case-insensitive) is
modelled as the files under `scripts/` whose lowercased name ends in
`.lua`, and likewise for `dlls/*.dll`. -/
def UE4SSMod.from_path (rootPathStr : String) (d : ModDir) (override_enabled : Bool) :
    Except ModError (Option UE4SSMod) :=
  let pathStr := rootPathStr ++ "/" ++ d.name
  let name := pyStem d.name
  if d.isDir = false then Except.ok none
  else
    let lua := (d.scriptsFiles.filter (fun f => pyEndsWith (pyLower f) ".lua")).map
      (fun f => relScriptName (pathStr ++ "/scripts/" ++ f) name)
    let dll := (d.dllsFiles.filter (fun f => pyEndsWith (pyLower f) ".dll")).map
      (fun f => relScriptName (pathStr ++ "/dlls/" ++ f) name)
    let scripts := lua ++ dll
    if scripts = [] then Except.error ModError.noScripts
    else if "main.lua" ∉ scripts ∧ "main.dll" ∉ scripts then Except.error ModError.noMainFile
    else
      let lang := if "main.lua" ∈ scripts then Lang.lua else Lang.cpp
      let enabled := d.hasEnabledTxt || override_enabled
      Except.ok (some { name := name, path := pathStr, enabled := enabled,
                        scripts := scripts, is_native := false, lang := lang })

/-- `enabled_file.touch()`: add a marker path to the set if absent. -/
def insertMarker (p : String) (l : List String) : List String :=
  if p ∈ l then l else l ++ [p]

/-- `UE4SSMod.enable`: touch the marker file, set the in-memory flag. -/
def UE4SSMod.enable (m : UE4SSMod) (s : FSState) : UE4SSMod × FSState :=
  ({ m with enabled := true }, { s with markers := insertMarker m.path s.markers })

/-- `UE4SSMod.disable`: unlink the marker file if present (no error if
absent), clear the in-memory flag. -/
def UE4SSMod.disable (m : UE4SSMod) (s : FSState) : UE4SSMod × FSState :=
  ({ m with enabled := false },
   { s with markers := s.markers.filter (fun q => decide (q ≠ m.path)) })

/-- Sequential marker insertion, the disk effect of enabling a list of
mods in order. -/
def insertAll (ps : List String) (l : List String) : List String :=
  ps.foldl (fun acc p => insertMarker p acc) l

/-- Sequential marker removal, the disk effect of disabling a list of
mods in order. -/
def removeAll (ps : List String) (l : List String) : List String :=
  ps.foldl (fun acc p => acc.filter (fun q => decide (q ≠ p))) l

namespace UE4SSModManager

/-- `UE4SSModManager._get_enabled_overrides`, as a function of the two
optional override files.  From `mods.txt` it keeps each stripped line
that ends in `"1"` (the whole line, not the mod name); from `mods.json`
it keeps the `mod_name` of each record whose `mod_enabled` is true. -/
def get_enabled_overrides (modsTxt : Option String) (modsJson : Option (List JsonRecord)) :
    List String :=
  (match modsTxt with
   | some content => ((pySplit content "\n").map pyTrim).filter (fun l => pyEndsWith l "1")
   | none => []) ++
  (match modsJson with
   | some recs => (recs.filter (fun r => r.mod_enabled)).map (fun r => r.mod_name)
   | none => [])

/-- `UE4SSModManager._has_right_folder_structure`:
`path.stem.upper() == "MODS" and path.parent.stem.upper() == "UE4SS"`. -/
def has_right_folder_structure (fs : RootFS) : Bool :=
  pyUpper (pyStem fs.name) = "MODS" && pyUpper (pyStem fs.parentName) = "UE4SS"

/-- `UE4SSModManager.load_mods`: iterate the root's children, keep
directories whose stem is not `SHARED` (case-insensitive), construct
each with `override_enabled = (stem ∈ overrides)`, and silently drop
both `None` results and construction failures (the `try/except` around
`from_path`). -/
def load_mods (fs : RootFS) (overrides : List String) : List UE4SSMod :=
  (fs.entries.filter (fun d => d.isDir && pyUpper (pyStem d.name) ≠ "SHARED")).filterMap
    (fun d =>
      match UE4SSMod.from_path fs.pathStr d (decide (pyStem d.name ∈ overrides)) with
      | Except.ok (some m) => some m
      | Except.ok none => none
      | Except.error _ => none)

/-- `UE4SSModManager.__init__`: read the overrides, then validate the
root (`is_dir`, `exists`, folder-structure check) and raise
`InvalidModFolderException` on failure, else populate the registry via
`load_mods`. -/
def construct (fs : RootFS) : Except MgrError (List UE4SSMod) :=
  let overrides := get_enabled_overrides fs.modsTxt fs.modsJson
  if !fs.isDir || !fs.existsOnDisk || !has_right_folder_structure fs then
    Except.error MgrError.invalidModFolder
  else
    Except.ok (load_mods fs overrides)

/-- `UE4SSModManager.enable_mods`: walk the registry in order and call
`enable()` on each mod whose name is in the list, threading disk
state. -/
def enable_mods : List UE4SSMod → List String → FSState → List UE4SSMod × FSState
  | [], _, s => ([], s)
  | m :: ms, names, s =>
    if m.name ∈ names then
      let p := m.enable s
      let rest := enable_mods ms names p.2
      (p.1 :: rest.1, rest.2)
    else
      let rest := enable_mods ms names s
      (m :: rest.1, rest.2)

/-- `UE4SSModManager.disable_mods`: walk the registry in order and call
`disable()` on each mod whose name is in the list. -/
def disable_mods : List UE4SSMod → List String → FSState → List UE4SSMod × FSState
  | [], _, s => ([], s)
  | m :: ms, names, s =>
    if m.name ∈ names then
      let p := m.disable s
      let rest := disable_mods ms names p.2
      (p.1 :: rest.1, rest.2)
    else
      let rest := disable_mods ms names s
      (m :: rest.1, rest.2)

/-- `UE4SSModManager._write_to_mods_json`: delete any existing file and
write the enabled subset as `{"mod_name": name, "mod_enabled": flag}`
records (the unlink followed by the write is a plain overwrite). -/
def write_to_mods_json (mods : List UE4SSMod) (s : FSState) : FSState :=
  let output := (mods.filter (fun m => m.enabled)).map
    (fun m => JsonRecord.mk m.name m.enabled)
  { s with modsJsonFile := some output }

/-- `UE4SSModManager._write_to_mods_txt`: delete any existing file and
write one line `"<name> : 1\n"` per enabled mod. -/
def write_to_mods_txt (mods : List UE4SSMod) (s : FSState) : FSState :=
  let output := (mods.filter (fun m => m.enabled)).map (fun m => m.name ++ " : 1\n")
  { s with modsTxtFile := some (output.foldl (fun a b => a ++ b) "") }

/-- `UE4SSModManager.parse_mods`: partition the desired-state list into
enabled and disabled subsets, write `mods.json` and `mods.txt` if
requested, then (if requested) call `enable()` on every enabled mod and
`disable()` on every disabled mod.  The returned list is the caller's
list after the in-place flag mutations (each enabled mod's flag set to
true, each disabled mod's to false), in the caller's order. -/
def parse_mods (mods : List UE4SSMod) (opts : SaveOpts) (s : FSState) :
    List UE4SSMod × FSState :=
  let enabled_mods := mods.filter (fun m => m.enabled)
  let disabled_mods := mods.filter (fun m => !m.enabled)
  let s1 := if opts.save_mods_json then write_to_mods_json enabled_mods s else s
  let s2 := if opts.save_mods_txt then write_to_mods_txt enabled_mods s1 else s1
  if opts.save_enabled_txt then
    let s3 := enabled_mods.foldl (fun st m => (m.enable st).2) s2
    let s4 := disabled_mods.foldl (fun st m => (m.disable st).2) s3
    (mods.map (fun m => if m.enabled then { m with enabled := true }
                        else { m with enabled := false }), s4)
  else (mods, s2)

end UE4SSModManager

/-- Sample mod folder `Foo` holding only `scripts/main.lua`, with no
`enabled.txt` marker. -/
def fooLuaDir : ModDir :=
  ⟨"Foo", true, ["main.lua"], [], false⟩

/-- Sample root `/games/UE4SS/Mods` whose `mods.txt` holds the single
line `"Foo : 1"` and which contains the single mod folder `Foo`. -/
def rootWithFooTxt : RootFS :=
  ⟨"/games/UE4SS/Mods", "Mods", "UE4SS", true, true, some "Foo : 1\n", none, [fooLuaDir]⟩

/-- Sample valid mod folder `Good` holding only `scripts/main.lua`. -/
def goodDir : ModDir :=
  ⟨"Good", true, ["main.lua"], [], false⟩

/-- Sample malformed mod folder `Bad` with no script files at all. -/
def badDir : ModDir :=
  ⟨"Bad", true, [], [], false⟩

/-- Sample root containing one valid mod folder and one malformed one. -/
def rootTwoMods : RootFS :=
  ⟨"/games/UE4SS/Mods", "Mods", "UE4SS", true, true, none, none, [goodDir, badDir]⟩

/-- The Mod discovered from `goodDir` under `rootTwoMods`. -/
def goodMod : UE4SSMod :=
  ⟨"Good", "/games/UE4SS/Mods/Good", false, ["main.lua"], false, Lang.lua⟩

/-- Sample enabled mod `A`. -/
def modA : UE4SSMod :=
  ⟨"A", "/games/UE4SS/Mods/A", true, ["main.lua"], false, Lang.lua⟩

/-- Sample enabled mod `B`. -/
def modB : UE4SSMod :=
  ⟨"B", "/games/UE4SS/Mods/B", true, ["main.lua"], false, Lang.lua⟩

/-- Sample disabled mod `C`. -/
def modC : UE4SSMod :=
  ⟨"C", "/games/UE4SS/Mods/C", false, ["main.lua"], false, Lang.lua⟩

/-- Empty persistence state: no markers, no list files. -/
def emptyFS : FSState :=
  ⟨[], none, none⟩

/-- Existing directory whose own name is `Mods.bak` (stem `Mods`)
inside a parent named `UE4SS`. -/
def rootStemBak : RootFS :=
  ⟨"/games/UE4SS/Mods.bak", "Mods.bak", "UE4SS", true, true, none, none, []⟩

/-- Existing, empty, conventionally named root `UE4SS/Mods`. -/
def rootValidEmpty : RootFS :=
  ⟨"/games/UE4SS/Mods", "Mods", "UE4SS", true, true, none, none, []⟩

/-- C1: given override file `mods.txt` containing the line `"Foo : 1"`
and a valid mod folder `Foo` with no `enabled.txt`, the override list
retains the whole stripped line `"Foo : 1"`, while discovery compares
the folder stem `"Foo"` against that list by equality, so the override
never matches and `Foo` is discovered with `enabled = false` — the
specified behaviour (`Foo.enabled == true`) does not hold. -/
theorem mods_txt_override_line_not_matched :
    UE4SSModManager.get_enabled_overrides rootWithFooTxt.modsTxt rootWithFooTxt.modsJson
      = ["Foo : 1"]
    ∧ (UE4SSModManager.load_mods rootWithFooTxt
        (UE4SSModManager.get_enabled_overrides rootWithFooTxt.modsTxt rootWithFooTxt.modsJson)).map
          (fun m => (m.name, m.enabled)) = [("Foo", false)] := by
  decide

/-- C2: a native mod whose `dlls/` folder holds exactly `main.dll`
is rejected by `from_path`.  The relative-name computation drops seven
characters to remove the `scripts` prefix, but the `dlls` prefix is
only four characters long, so `dlls/main.dll` is recorded as `"n.dll"`
and the required entry point is not recognized. -/
theorem native_mod_main_dll_rejected :
    relScriptName "/games/UE4SS/Mods/Foo/dlls/main.dll" "Foo" = "n.dll"
    ∧ UE4SSMod.from_path "/games/UE4SS/Mods" ⟨"Foo", true, [], ["main.dll"], false⟩ false
        = Except.error ModError.noMainFile := by
  decide

/-- C3: `from_path` on a path that is not a directory does not fail
with `InvalidMod`; it logs a warning and returns `None` (modelled as
`Except.ok none`), contradicting the claim and the function's own
docstring. -/
theorem from_path_non_directory_returns_none :
    UE4SSMod.from_path "/games/UE4SS/Mods" ⟨"Foo", false, [], [], false⟩ false
      = Except.ok none := by
  decide

/-- C4: a mod folder containing neither `main.lua` nor `main.dll` can
still be accepted: the file `dlls/no_main.dll` loses its first three
characters to the seven-character slice and is recorded as
`"main.dll"`, so construction succeeds with `lang = cpp` instead of
raising `InvalidModException`. -/
theorem no_main_mod_accepted_via_dll_slicing :
    UE4SSMod.from_path "/games/UE4SS/Mods" ⟨"Foo", true, [], ["no_main.dll"], false⟩ false
      = Except.ok (some ⟨"Foo", "/games/UE4SS/Mods/Foo", false, ["main.dll"], false, Lang.cpp⟩) := by
  decide

/-- Membership in a marker insertion. -/
theorem mem_insertMarker (x p : String) (l : List String) :
    x ∈ insertMarker p l ↔ x ∈ l ∨ x = p := by
  unfold insertMarker
  split
  · next h =>
    constructor
    · exact Or.inl
    · rintro (hx | rfl)
      · exact hx
      · exact h
  · simp

/-- Membership in a sequence of marker insertions. -/
theorem mem_insertAll (x : String) (ps l : List String) :
    x ∈ insertAll ps l ↔ x ∈ l ∨ x ∈ ps := by
  induction ps generalizing l with
  | nil => simp [insertAll]
  | cons p ps ih =>
    show x ∈ insertAll ps (insertMarker p l) ↔ _
    rw [ih, mem_insertMarker]
    simp only [List.mem_cons]
    tauto

/-- A sequence of marker insertions appends a block of fresh names
drawn from the inserted list. -/
theorem insertAll_extra (ps l : List String) :
    ∃ ex, insertAll ps l = l ++ ex ∧ ∀ x ∈ ex, x ∈ ps ∧ x ∉ l := by
  induction ps generalizing l with
  | nil => exact ⟨[], by simp [insertAll]⟩
  | cons p ps ih =>
    show ∃ ex, insertAll ps (insertMarker p l) = l ++ ex ∧ _
    by_cases hp : p ∈ l
    · obtain ⟨ex, hex, hprop⟩ := ih l
      refine ⟨ex, by simpa [insertMarker, hp] using hex, fun x hx => ?_⟩
      exact ⟨List.mem_cons_of_mem _ (hprop x hx).1, (hprop x hx).2⟩
    · obtain ⟨ex, hex, hprop⟩ := ih (l ++ [p])
      refine ⟨p :: ex, ?_, ?_⟩
      · rw [insertMarker, if_neg hp, hex, List.append_cons l p ex]
      · intro x hx
        rcases List.mem_cons.mp hx with rfl | hx'
        · exact ⟨List.mem_cons_self _ _, hp⟩
        · refine ⟨List.mem_cons_of_mem _ (hprop x hx').1, fun hxl => (hprop x hx').2 ?_⟩
          exact List.mem_append_left _ hxl

/-- A sequence of marker removals is a single filter. -/
theorem removeAll_eq_filter (ps l : List String) :
    removeAll ps l = l.filter (fun x => decide (x ∉ ps)) := by
  induction ps generalizing l with
  | nil => simp [removeAll]
  | cons p ps ih =>
    show removeAll ps (l.filter fun q => decide (q ≠ p)) = _
    rw [ih, List.filter_filter]
    apply List.filter_congr
    intro x _
    by_cases hxp : x = p <;> by_cases hxps : x ∈ ps <;> simp [hxp, hxps]

/-- Re-inserting and re-removing the same markers over an already
reconciled marker set changes nothing. -/
theorem insert_remove_markers_idem (E D M : List String) :
    removeAll D (insertAll E (removeAll D (insertAll E M)))
      = removeAll D (insertAll E M) := by
  set M1 := removeAll D (insertAll E M) with hM1
  obtain ⟨ex, hex, hprop⟩ := insertAll_extra E M1
  rw [removeAll_eq_filter, hex, List.filter_append]
  have h1 : M1.filter (fun x => decide (x ∉ D)) = M1 := by
    rw [hM1, removeAll_eq_filter, List.filter_filter]
    apply List.filter_congr
    intro x _
    simp
  have h2 : ex.filter (fun x => decide (x ∉ D)) = [] := by
    rw [List.filter_eq_nil_iff]
    intro x hx
    obtain ⟨hxE, hxM1⟩ := hprop x hx
    have hxIns : x ∈ insertAll E M := (mem_insertAll x E M).mpr (Or.inr hxE)
    simp only [decide_eq_true_eq, not_not]
    by_contra hxD
    exact hxM1 (by
      rw [hM1, removeAll_eq_filter]
      exact List.mem_filter.mpr ⟨hxIns, by simpa using hxD⟩)
  rw [h1, h2, List.append_nil]

/-- C5: a root with exactly one subdirectory that constructs
successfully and one whose construction fails yields exactly the one
valid Mod; the failing folder is silently skipped and the scan returns
normally. -/
theorem load_mods_skips_invalid_sibling (fs : RootFS) (ov : List String) (V I : ModDir)
    (m : UE4SSMod) (e : ModError)
    (hent : fs.entries = [V, I])
    (hVdir : V.isDir = true) (hVsh : pyUpper (pyStem V.name) ≠ "SHARED")
    (hV : UE4SSMod.from_path fs.pathStr V (decide (pyStem V.name ∈ ov)) = Except.ok (some m))
    (hIdir : I.isDir = true) (hIsh : pyUpper (pyStem I.name) ≠ "SHARED")
    (hI : UE4SSMod.from_path fs.pathStr I (decide (pyStem I.name ∈ ov)) = Except.error e) :
    UE4SSModManager.load_mods fs ov = [m] := by
  unfold UE4SSModManager.load_mods
  rw [hent]
  simp [List.filter, hVdir, hVsh, hIdir, hIsh, List.filterMap, hV, hI]

/-- Witness for C5 at a concrete root holding the valid mod `Good` and
the scriptless folder `Bad`. -/
theorem load_mods_skips_invalid_sibling_witness :
    UE4SSModManager.load_mods rootTwoMods [] = [goodMod] :=
  load_mods_skips_invalid_sibling rootTwoMods [] goodDir badDir goodMod ModError.noScripts
    (by decide) (by decide) (by decide) (by decide) (by decide) (by decide) (by decide)

/-- C8: enabling then disabling a mod leaves its in-memory flag false
and its marker file absent, and disabling a mod whose marker file is
already absent is a no-op on disk that still clears the flag and does
not fail. -/
theorem enable_then_disable_clean (m : UE4SSMod) (s : FSState) :
    ((m.enable s).1.disable (m.enable s).2).1.enabled = false
    ∧ m.path ∉ ((m.enable s).1.disable (m.enable s).2).2.markers
    ∧ (m.path ∉ s.markers → m.disable s = ({ m with enabled := false }, s)) := by
  refine ⟨rfl, ?_, ?_⟩
  · simp [UE4SSMod.enable, UE4SSMod.disable, List.mem_filter]
  · intro h
    have hfix : s.markers.filter (fun q => decide (q ≠ m.path)) = s.markers := by
      rw [List.filter_eq_self]
      intro a ha
      simp only [decide_eq_true_eq]
      rintro rfl
      exact h ha
    show ({ m with enabled := false },
      { s with markers := s.markers.filter (fun q => decide (q ≠ m.path)) }) = _
    rw [hfix]

/-- Witness for C8's no-op clause at a mod with no marker on disk. -/
theorem enable_then_disable_clean_witness :
    modA.path ∉ emptyFS.markers
    ∧ UE4SSMod.disable modA emptyFS = ({ modA with enabled := false }, emptyFS) :=
  ⟨by decide, (enable_then_disable_clean modA emptyFS).2.2 (by decide)⟩

/-- Writing back a mod's own enabled flag is the identity on the mod
value: `enable()` is only applied to mods whose flag is already true,
`disable()` to mods whose flag is already false. -/
theorem mod_flag_ite (m : UE4SSMod) :
    (if m.enabled then { m with enabled := true } else { m with enabled := false }) = m := by
  obtain ⟨n, p, e, sc, isn, lg⟩ := m
  cases e <;> rfl

/-- Folding `enable()` over a list of mods only inserts their marker
paths in order. -/
theorem foldl_enable_eq (l : List UE4SSMod) (s : FSState) :
    l.foldl (fun st m => (m.enable st).2) s
      = { s with markers := insertAll (l.map (fun m => m.path)) s.markers } := by
  induction l generalizing s with
  | nil => rfl
  | cons m ms ih =>
    rw [List.foldl_cons, ih]
    rfl

/-- Folding `disable()` over a list of mods only removes their marker
paths in order. -/
theorem foldl_disable_eq (l : List UE4SSMod) (s : FSState) :
    l.foldl (fun st m => (m.disable st).2) s
      = { s with markers := removeAll (l.map (fun m => m.path)) s.markers } := by
  induction l generalizing s with
  | nil => rfl
  | cons m ms ih =>
    rw [List.foldl_cons, ih]
    rfl

/-- The desired-state list is unchanged in value by `parse_mods`. -/
theorem parse_mods_fst (mods : List UE4SSMod) (opts : SaveOpts) (s : FSState) :
    (UE4SSModManager.parse_mods mods opts s).1 = mods := by
  by_cases h : opts.save_enabled_txt <;>
    simp [UE4SSModManager.parse_mods, h, mod_flag_ite]

/-- Resulting disk state of `parse_mods`, component by component. -/
theorem parse_mods_snd (mods : List UE4SSMod) (opts : SaveOpts) (s : FSState) :
    (UE4SSModManager.parse_mods mods opts s).2 =
      { markers :=
          if opts.save_enabled_txt then
            removeAll ((mods.filter (fun m => !m.enabled)).map (fun m => m.path))
              (insertAll ((mods.filter (fun m => m.enabled)).map (fun m => m.path)) s.markers)
          else s.markers,
        modsTxtFile :=
          if opts.save_mods_txt then
            some (((mods.filter (fun m => m.enabled)).map
              (fun m => m.name ++ " : 1\n")).foldl (fun a b => a ++ b) "")
          else s.modsTxtFile,
        modsJsonFile :=
          if opts.save_mods_json then
            some ((mods.filter (fun m => m.enabled)).map
              (fun m => JsonRecord.mk m.name m.enabled))
          else s.modsJsonFile } := by
  by_cases h1 : opts.save_enabled_txt <;> by_cases h2 : opts.save_mods_json <;>
    by_cases h3 : opts.save_mods_txt <;>
    simp [UE4SSModManager.parse_mods, UE4SSModManager.write_to_mods_json,
      UE4SSModManager.write_to_mods_txt, h1, h2, h3, foldl_enable_eq, foldl_disable_eq,
      List.filter_filter, Bool.and_self]

/-- C7: calling `parse_mods` twice in a row with the identical
desired-state list and identical options is idempotent: the second call
leaves the mod list, both list files and the marker set exactly as the
first call did, for every combination of the three save options. -/
theorem parse_mods_idempotent (mods : List UE4SSMod) (opts : SaveOpts) (s : FSState) :
    UE4SSModManager.parse_mods (UE4SSModManager.parse_mods mods opts s).1 opts
        (UE4SSModManager.parse_mods mods opts s).2
      = UE4SSModManager.parse_mods mods opts s := by
  rw [parse_mods_fst, Prod.ext_iff]
  constructor
  · rw [parse_mods_fst, parse_mods_fst]
  · rw [parse_mods_snd mods opts ((UE4SSModManager.parse_mods mods opts s).2),
      parse_mods_snd mods opts s]
    by_cases h1 : opts.save_enabled_txt <;> by_cases h2 : opts.save_mods_json <;>
      by_cases h3 : opts.save_mods_txt <;>
      simp [h1, h2, h3, insert_remove_markers_idem]

/-- C6: with `save_mods_json` requested and a desired state whose
enabled part is exactly `[A, B]` and disabled part exactly `[C]`,
`parse_mods` writes a manifest holding exactly the records for `A` and
`B` with flag true (`C` absent), and re-reading overrides from that
manifest alone reproduces exactly the enabled names `[A, B]`. -/
theorem parse_mods_json_roundtrip (mods : List UE4SSMod) (A B C : UE4SSMod)
    (opts : SaveOpts) (s : FSState)
    (hA : A.enabled = true) (hB : B.enabled = true) (hC : C.enabled = false)
    (hE : mods.filter (fun m => m.enabled) = [A, B])
    (hD : mods.filter (fun m => !m.enabled) = [C])
    (hopt : opts.save_mods_json = true) :
    (UE4SSModManager.parse_mods mods opts s).2.modsJsonFile
        = some [JsonRecord.mk A.name true, JsonRecord.mk B.name true]
    ∧ UE4SSModManager.get_enabled_overrides none
        (some [JsonRecord.mk A.name true, JsonRecord.mk B.name true])
      = [A.name, B.name] := by
  constructor
  · rw [parse_mods_snd]
    simp [hopt, hE, hA, hB]
  · simp [UE4SSModManager.get_enabled_overrides]

/-- Witness for C6 at the concrete desired state `[A, B, C]` with `A`,
`B` enabled and `C` disabled. -/
theorem parse_mods_json_roundtrip_witness :
    (UE4SSModManager.parse_mods [modA, modB, modC] {} emptyFS).2.modsJsonFile
        = some [JsonRecord.mk "A" true, JsonRecord.mk "B" true]
    ∧ UE4SSModManager.get_enabled_overrides none
        (some [JsonRecord.mk "A" true, JsonRecord.mk "B" true]) = ["A", "B"] :=
  parse_mods_json_roundtrip [modA, modB, modC] modA modB modC {} emptyFS
    (by decide) (by decide) (by decide) (by decide) (by decide) (by decide)

/-- C9 counterexample: an existing directory named `Mods.bak` inside a
parent named `UE4SS` does not case-insensitively equal the reserved
token `Mods`, so under the claim construction must raise; the code
compares the folder's stem instead, and construction succeeds. -/
theorem construct_stem_check_counterexample :
    UE4SSModManager.construct rootStemBak = Except.ok []
    ∧ rootStemBak.existsOnDisk = true ∧ rootStemBak.isDir = true
    ∧ pyUpper rootStemBak.name ≠ "MODS" := by
  decide

/-- C9 as amended: construction fails with `InvalidModFolder` if and
only if the root does not exist, is not a directory, or its folder
stem (name minus final dot-suffix) does not case-insensitively equal
`Mods`, or its parent's stem does not case-insensitively equal
`UE4SS`; otherwise construction succeeds and populates the registry via
discovery with the overrides read from the two root files. -/
theorem construct_error_iff_stem_convention (fs : RootFS) :
    (UE4SSModManager.construct fs = Except.error MgrError.invalidModFolder
      ↔ ¬(fs.existsOnDisk = true ∧ fs.isDir = true
            ∧ pyUpper (pyStem fs.name) = "MODS"
            ∧ pyUpper (pyStem fs.parentName) = "UE4SS"))
    ∧ ((fs.existsOnDisk = true ∧ fs.isDir = true
          ∧ pyUpper (pyStem fs.name) = "MODS"
          ∧ pyUpper (pyStem fs.parentName) = "UE4SS")
        → UE4SSModManager.construct fs
            = Except.ok (UE4SSModManager.load_mods fs
                (UE4SSModManager.get_enabled_overrides fs.modsTxt fs.modsJson))) := by
  constructor
  · by_cases h1 : fs.isDir = true <;> by_cases h2 : fs.existsOnDisk = true <;>
      by_cases h3 : pyUpper (pyStem fs.name) = "MODS" <;>
      by_cases h4 : pyUpper (pyStem fs.parentName) = "UE4SS" <;>
      simp [UE4SSModManager.construct, UE4SSModManager.has_right_folder_structure,
        h1, h2, h3, h4]
  · rintro ⟨h2, h1, h3, h4⟩
    simp [UE4SSModManager.construct, UE4SSModManager.has_right_folder_structure,
      h1, h2, h3, h4]

/-- Witness for C9's amended statement at a conventionally named,
existing, empty root. -/
theorem construct_error_iff_stem_convention_witness :
    UE4SSModManager.construct rootValidEmpty = Except.ok [] := by
  have h := (construct_error_iff_stem_convention rootValidEmpty).2 (by decide)
  rw [h]
  decide

/-- In-memory effect of `enable_mods`: each registry mod whose name is
listed gets its flag set true, every other mod is untouched, in
registry order. -/
theorem enable_mods_fst (mods : List UE4SSMod) (names : List String) (s : FSState) :
    (UE4SSModManager.enable_mods mods names s).1
      = mods.map (fun m => if m.name ∈ names then { m with enabled := true } else m) := by
  induction mods generalizing s with
  | nil => rfl
  | cons m ms ih =>
    by_cases h : m.name ∈ names <;>
      simp [UE4SSModManager.enable_mods, h, ih, UE4SSMod.enable]

/-- Disk effect of `enable_mods`: only the marker paths of the listed
registry mods are inserted. -/
theorem enable_mods_snd (mods : List UE4SSMod) (names : List String) (s : FSState) :
    (UE4SSModManager.enable_mods mods names s).2
      = { s with
          markers :=
            insertAll ((mods.filter (fun m => decide (m.name ∈ names))).map
              (fun m => m.path)) s.markers } := by
  induction mods generalizing s with
  | nil => rfl
  | cons m ms ih =>
    by_cases h : m.name ∈ names <;>
      simp [UE4SSModManager.enable_mods, h, ih, UE4SSMod.enable, insertAll]

/-- In-memory effect of `disable_mods`: each listed registry mod gets
its flag cleared, every other mod is untouched, in registry order. -/
theorem disable_mods_fst (mods : List UE4SSMod) (names : List String) (s : FSState) :
    (UE4SSModManager.disable_mods mods names s).1
      = mods.map (fun m => if m.name ∈ names then { m with enabled := false } else m) := by
  induction mods generalizing s with
  | nil => rfl
  | cons m ms ih =>
    by_cases h : m.name ∈ names <;>
      simp [UE4SSModManager.disable_mods, h, ih, UE4SSMod.disable]

/-- Disk effect of `disable_mods`: only the marker paths of the listed
registry mods are removed. -/
theorem disable_mods_snd (mods : List UE4SSMod) (names : List String) (s : FSState) :
    (UE4SSModManager.disable_mods mods names s).2
      = { s with
          markers :=
            removeAll ((mods.filter (fun m => decide (m.name ∈ names))).map
              (fun m => m.path)) s.markers } := by
  induction mods generalizing s with
  | nil => rfl
  | cons m ms ih =>
    by_cases h : m.name ∈ names <;>
      simp [UE4SSModManager.disable_mods, h, ih, UE4SSMod.disable, removeAll]

/-- C10: `enable_mods`/`disable_mods` apply `enable()`/`disable()` only
to registry mods whose name is in the given list.  Registry membership
and order are unchanged (the name sequence is preserved), and every mod
whose name is not listed keeps its value (flag included) and its marker
file, provided registry mods are distinguished by path the way a real
scan produces them (no two registry mods under one folder path carry
different names). -/
theorem enable_disable_mods_frame (mods : List UE4SSMod) (names : List String) (s : FSState)
    (hdisj : ∀ m ∈ mods, ∀ m' ∈ mods, m.path = m'.path → m.name = m'.name) :
    ((UE4SSModManager.enable_mods mods names s).1.map (fun m => m.name)
        = mods.map (fun m => m.name)
      ∧ (UE4SSModManager.disable_mods mods names s).1.map (fun m => m.name)
        = mods.map (fun m => m.name))
    ∧ ∀ i (hi : i < mods.length), (mods.get ⟨i, hi⟩).name ∉ names →
        ((UE4SSModManager.enable_mods mods names s).1[i]? = some (mods.get ⟨i, hi⟩)
          ∧ ((mods.get ⟨i, hi⟩).path ∈ (UE4SSModManager.enable_mods mods names s).2.markers
              ↔ (mods.get ⟨i, hi⟩).path ∈ s.markers))
        ∧ ((UE4SSModManager.disable_mods mods names s).1[i]? = some (mods.get ⟨i, hi⟩)
          ∧ ((mods.get ⟨i, hi⟩).path ∈ (UE4SSModManager.disable_mods mods names s).2.markers
              ↔ (mods.get ⟨i, hi⟩).path ∈ s.markers)) := by
  have hnotin : ∀ m : UE4SSMod, m ∈ mods → m.name ∉ names →
      m.path ∉ (mods.filter (fun x => decide (x.name ∈ names))).map (fun x => x.path) := by
    intro m hm hname hmem
    obtain ⟨m', hm'mem, hm'path⟩ := List.mem_map.mp hmem
    obtain ⟨hm'mods, hm'names⟩ := List.mem_filter.mp hm'mem
    have heq : m'.name = m.name := hdisj m' hm'mods m hm hm'path
    exact hname (heq ▸ (by simpa using hm'names))
  refine ⟨⟨?_, ?_⟩, ?_⟩
  · simp [enable_mods_fst, List.map_map, Function.comp_def, apply_ite (fun m : UE4SSMod => m.name)]
  · simp [disable_mods_fst, List.map_map, Function.comp_def, apply_ite (fun m : UE4SSMod => m.name)]
  · intro i hi hname
    have hmem_i : mods.get ⟨i, hi⟩ ∈ mods := List.get_mem mods _ _
    have hpath := hnotin _ hmem_i hname
    refine ⟨⟨?_, ?_⟩, ?_, ?_⟩
    · rw [enable_mods_fst, List.getElem?_map, List.getElem?_eq_getElem hi]
      have hname' : mods[i].name ∉ names := hname
      simp [hname']
    · rw [enable_mods_snd]
      show _ ∈ insertAll _ s.markers ↔ _
      rw [mem_insertAll]
      constructor
      · rintro (hin | habs)
        · exact hin
        · exact absurd habs hpath
      · exact Or.inl
    · rw [disable_mods_fst, List.getElem?_map, List.getElem?_eq_getElem hi]
      have hname' : mods[i].name ∉ names := hname
      simp [hname']
    · rw [disable_mods_snd]
      show _ ∈ removeAll _ s.markers ↔ _
      rw [removeAll_eq_filter, List.mem_filter]
      constructor
      · exact fun h => h.1
      · exact fun h => ⟨h, by simpa using hpath⟩

/-- Witness for C10 at a two-mod registry where only `A` is targeted:
`B` keeps its value and marker state. -/
theorem enable_disable_mods_frame_witness :
    (UE4SSModManager.enable_mods [modA, modB] ["A"] emptyFS).1[1]? = some modB
    ∧ (modB.path ∈ (UE4SSModManager.enable_mods [modA, modB] ["A"] emptyFS).2.markers
        ↔ modB.path ∈ emptyFS.markers) := by
  have h := enable_disable_mods_frame [modA, modB] ["A"] emptyFS (by decide)
  exact (h.2 1 (by decide) (by decide)).1
